import Mathlib

/-!
Verification of the barebones HTTP/1.1 client in `hw1.py`.

The program is shallowly embedded: Python `bytes`/`str` values become `List Nat`
(byte values), the stdlib string operations used by the program (`find`, `rfind`,
`split`, `strip`, `replace`, `partition`, `int(...)`, `startswith`, `in`) are
modelled as executable Lean functions, sockets and `gzip.decompress` become
oracle parameters, and exceptions become `Except`/`Option` results.  Loops whose
iteration count is bounded by the input length are written with an explicit fuel
argument (always instantiated to more than the input length by the wrappers), so
every definition is structurally recursive and kernel-executable.
-/

/-- Byte sequence of an ASCII string literal. -/
def bytesOf (s : String) : List Nat := s.data.map (fun c => c.toNat)

/-- Python `bytes.strip` whitespace set (space, tab, LF, VT, FF, CR). -/
def isSpaceB (b : Nat) : Bool := b = 32 || b = 9 || b = 10 || b = 11 || b = 12 || b = 13

/-- Python `bytes.strip()`: drop whitespace from both ends. -/
def pyStrip (s : List Nat) : List Nat :=
  ((s.dropWhile isSpaceB).reverse.dropWhile isSpaceB).reverse

/-- Index of the first occurrence of `pat` as a contiguous substring of `s`
(Python `s.find(pat)` when it is non-negative). -/
def findSub (pat : List Nat) : List Nat → Option Nat
  | [] => if pat.isPrefixOf ([] : List Nat) then some 0 else none
  | x :: rest =>
    if pat.isPrefixOf (x :: rest) then some 0
    else (findSub pat rest).map (fun k => k + 1)

/-- Python `pat in s` for byte strings: does `pat` occur as a contiguous
substring of `s`? -/
def containsSub (pat s : List Nat) : Bool := (findSub pat s).isSome

/-- Python `s.partition(sep)`, keeping only the head and tail parts
(the program discards the separator itself). -/
def pyPartition (sep s : List Nat) : List Nat × List Nat :=
  match findSub sep s with
  | none => (s, [])
  | some i => (s.take i, s.drop (i + sep.length))

/-- Fuel-indexed worker for `pySplit`.  Each round consumes at least one byte of
`s`, so fuel `s.length + 1` never runs out for a non-empty separator. -/
def pySplitAux (sep : List Nat) : Nat → List Nat → List (List Nat)
  | 0, s => [s]
  | f + 1, s =>
    match findSub sep s with
    | none => [s]
    | some i => s.take i :: pySplitAux sep f (s.drop (i + sep.length))

/-- Python `s.split(sep)` for a non-empty separator. -/
def pySplit (sep s : List Nat) : List (List Nat) := pySplitAux sep (s.length + 1) s

/-- Fuel-indexed worker for `pySplitWs`. -/
def pySplitWsAux : Nat → List Nat → List (List Nat)
  | 0, _ => []
  | f + 1, s =>
    let t := s.dropWhile isSpaceB
    if t.isEmpty then []
    else t.takeWhile (fun b => !isSpaceB b) :: pySplitWsAux f (t.dropWhile (fun b => !isSpaceB b))

/-- Python `s.split()` (split on runs of whitespace, discarding empties). -/
def pySplitWs (s : List Nat) : List (List Nat) := pySplitWsAux (s.length + 1) s

/-- Is `b` an ASCII decimal digit? -/
def isDigitB (b : Nat) : Bool := 48 ≤ b && b ≤ 57

/-- Is `b` an ASCII hexadecimal digit? -/
def isHexDigitB (b : Nat) : Bool :=
  (48 ≤ b && b ≤ 57) || (97 ≤ b && b ≤ 102) || (65 ≤ b && b ≤ 70)

/-- Value of an ASCII hexadecimal digit. -/
def hexVal (b : Nat) : Nat :=
  if 48 ≤ b ∧ b ≤ 57 then b - 48
  else if 97 ≤ b ∧ b ≤ 102 then b - 87
  else if 65 ≤ b ∧ b ≤ 70 then b - 55
  else 0

/-- Numeric value of a hex-digit string. -/
def valHex (l : List Nat) : Nat := l.foldl (fun a b => 16 * a + hexVal b) 0

/-- Numeric value of a decimal-digit string. -/
def valDec (l : List Nat) : Nat := l.foldl (fun a b => 10 * a + (b - 48)) 0

/-- Unsigned decimal-digit parse helper for `pyInt`. -/
def decDigitsVal (t : List Nat) : Option Nat :=
  if !t.isEmpty && t.all isDigitB then some (valDec t) else none

/-- Python `int(s)`: strip whitespace, optional sign, decimal digits, else
`ValueError` (`none`).  Underscore separators, which never occur in the inputs
considered here, are not modelled. -/
def pyInt (s : List Nat) : Option Int :=
  let t := pyStrip s
  match t with
  | 45 :: rest => (decDigitsVal rest).map (fun n => -(n : Int))
  | 43 :: rest => (decDigitsVal rest).map (fun n => (n : Int))
  | _ => (decDigitsVal t).map (fun n => (n : Int))

/-- Validity of the part of a base-16 numeral after its first character (or
after a `0x`/`0X` prefix) for Python's `int(x, 16)`: hex digits with single
underscores allowed only between digits (a leading underscore is allowed here
because this position can follow the prefix, where `0x_3` is legal). -/
def hexDigitsTail : List Nat → Bool
  | [] => true
  | x :: rest =>
    if x = 95 then
      match rest with
      | [] => false
      | d :: rest2 => isHexDigitB d && hexDigitsTail rest2
    else isHexDigitB x && hexDigitsTail rest

/-- Does the sign-free, whitespace-free string `u` parse as a base-16 numeral
for Python's `int(x, 16)`: an optional `0x`/`0X` prefix followed by hex digits
with single underscores between digits (also directly after the prefix)? -/
def hexBody (u : List Nat) : Bool :=
  if u.take 2 = [48, 120] ∨ u.take 2 = [48, 88] then
    !(u.drop 2).isEmpty && hexDigitsTail (u.drop 2)
  else
    match u with
    | [] => false
    | d :: rest => isHexDigitB d && hexDigitsTail rest

/-- Numeric value of a string accepted by `hexBody`: drop the prefix if any,
drop the underscores, read the hex digits. -/
def hexBodyVal (u : List Nat) : Nat :=
  valHex ((if u.take 2 = [48, 120] ∨ u.take 2 = [48, 88] then u.drop 2 else u).filter
    (fun b => b != 95))

/-- Python `int(u, 16)` on an already-stripped argument (every call site below
passes a `pyStrip`-ed string, mirroring the source's explicit `.strip()` at
hw1.py line 165; `int`'s own whitespace stripping is then a no-op).  All
non-negative forms are modelled: optional `+` sign, optional `0x`/`0X` prefix,
underscore separators.  A leading `-`, which `int(x, 16)` also accepts, is not
modelled: a negative chunk size makes the source program take an empty slice
and step its loop index backwards (looping forever on inputs such as
`4\r\nabcd\r\n-7\r\n`), a divergent regime the suffix-based `pcbAux` cannot
express — every theorem below therefore quantifies only over inputs whose size
lines are either non-negative or rejected by Python outright (see
`pyHexAccepts`). -/
def pyIntHex (s : List Nat) : Option Nat :=
  if hexBody (if s.take 1 = [43] then s.drop 1 else s) then
    some (hexBodyVal (if s.take 1 = [43] then s.drop 1 else s))
  else none

/-- Does Python's `int(x, 16)` accept `x` (not raise `ValueError`)?  This is
the full acceptance test: strip whitespace, optional `+` or `-` sign, then a
`hexBody` numeral.  It is used to delimit theorem domains: `pyHexAccepts x =
false` means the source program itself rejects the size line `x`. -/
def pyHexAccepts (s : List Nat) : Bool :=
  hexBody
    (if (pyStrip s).take 1 = [43] ∨ (pyStrip s).take 1 = [45] then (pyStrip s).drop 1
     else pyStrip s)

/-- Fuel-indexed worker for `pyReplace`.  Each round consumes at least one byte
for a non-empty `sep`, so fuel `s.length + 1` never runs out. -/
def pyReplaceAux (sep repl : List Nat) : Nat → List Nat → List Nat
  | 0, s => s
  | _ + 1, [] => []
  | f + 1, x :: rest =>
    if sep.isPrefixOf (x :: rest) then repl ++ pyReplaceAux sep repl f ((x :: rest).drop sep.length)
    else x :: pyReplaceAux sep repl f rest

/-- Python `s.replace(sep, repl)` for a non-empty `sep`: single left-to-right
pass over non-overlapping occurrences. -/
def pyReplace (sep repl s : List Nat) : List Nat := pyReplaceAux sep repl (s.length + 1) s

/-- Index of the last occurrence of byte `b` in `s` (Python `s.rfind(chr(b))`
when it is non-negative). -/
def rfindByte (b : Nat) (s : List Nat) : Option Nat :=
  (findSub [b] s.reverse).map (fun i => s.length - 1 - i)

/-- Fuel-indexed decimal digit printer (digits of `n`, most significant first). -/
def natDigitsAux : Nat → Nat → List Nat
  | 0, _ => []
  | f + 1, n => if n < 10 then [48 + n] else natDigitsAux f (n / 10) ++ [48 + n % 10]

/-- Python `str(i)` (an `f"{i}"` interpolation) for an integer. -/
def intToStrB (i : Int) : List Nat :=
  if i < 0 then 45 :: natDigitsAux (i.natAbs + 1) i.natAbs
  else natDigitsAux (i.toNat + 1) i.toNat

/-- The token `b"session_id="` removed by `clean_response`. -/
def sidTok : List Nat := bytesOf "session_id="

/-- The token `b"timestamp="` removed by `clean_response`. -/
def tsTok : List Nat := bytesOf "timestamp="

/-- The exact bytes `get_http` searches the header block for to enable chunked
decoding. -/
def chunkedTok : List Nat := bytesOf "Transfer-Encoding: chunked"

/-- The exact bytes `get_http` searches the header block for to enable gzip
decompression. -/
def gzipTok : List Nat := bytesOf "Content-Encoding: gzip"

/-- The bytes `b"Location:"` used by the redirect scan. -/
def locTok : List Nat := bytesOf "Location:"

/-- The prefix `"http"` used by `get_http` to decide whether a Location value is
absolute. -/
def httpTok : List Nat := bytesOf "http"

/-- Model of `clean_response` (hw1.py lines 185-187): remove all `session_id=` tokens,
then all `timestamp=` tokens. -/
def clean_response (response : List Nat) : List Nat :=
  pyReplace tsTok [] (pyReplace sidTok [] response)

/-- Fuel-indexed worker for `process_chunked_body`; `data` is the remaining
suffix from the loop index `idx` on, `acc` the accumulated `full_body`.  The
loop guard `idx < len(data)` is subsumed: an empty remainder contains no CRLF,
so the first `match` arm returns the accumulator exactly as Python does.  Each
iteration consumes at least one byte, so fuel `data.length + 1` never runs
out.  Size lines that `int(x, 16)` parses as a negative number are outside the
model (see `pyIntHex`): on them the source program itself loops forever, and
no theorem below quantifies over such inputs. -/
def pcbAux : Nat → List Nat → List Nat → List Nat
  | 0, _, acc => acc
  | f + 1, data, acc =>
    match findSub [13, 10] data with
    | none => acc
    | some e =>
      match pyIntHex (pyStrip (data.take e)) with
      | none => acc
      | some size =>
        if size = 0 then acc
        else pcbAux f (data.drop (e + 2 + size + 2)) (acc ++ (data.drop (e + 2)).take size)

/-- Model of `process_chunked_body` (hw1.py lines 153-181). -/
def process_chunked_body (data : List Nat) : List Nat := pcbAux (data.length + 1) data []

/-- Python exception classes relevant to the program; every one of them is a
subclass of `Exception`, which the handlers in `retrieve_url` and `get_http`
catch. -/
inductive PyErr where
  | valueError : PyErr
  | unicodeError : PyErr
  | socketError : PyErr
  | sslError : PyErr
  | otherError : PyErr
deriving DecidableEq

/-- Outcome of the pure response-processing part of `get_http` (hw1.py lines
114-147).  Each constructor is one distinct control-flow branch of the source:
`parseError` is an exception while parsing the status line (caught by line 148,
yielding `None`), `notFound` the 404 branch, `redirect` the 301/302 branch
carrying the resolved URL passed to `retrieve_url`, `otherStatus` the non-200
branch (the carried code is the one in its log message), `gzipError` an
exception from `gzip.decompress` (caught, yielding `None`), and `body` the
decoded body returned on success. -/
inductive HttpStep where
  | parseError : HttpStep
  | notFound : HttpStep
  | redirect : List Nat → HttpStep
  | otherStatus : Int → HttpStep
  | gzipError : HttpStep
  | body : List Nat → HttpStep
deriving DecidableEq

/-- Status-code extraction (hw1.py lines 118-119):
`int(headers.split(b"\r\n")[0].decode().split()[1])`; `none` models the
`IndexError`/`ValueError` paths (fewer than two tokens, or a non-integer
token).  `decode()` is modelled as the identity on byte lists. -/
def pyStatusCode (headers : List Nat) : Option Int :=
  match (pySplitWs ((pySplit [13, 10] headers).headD [])).get? 1 with
  | none => none
  | some t => pyInt t

/-- Response processing after the `partition(b"\r\n\r\n")` split (hw1.py lines
117-147): status checks, redirect resolution, chunked decoding, gzip
decompression.  `g` is the `gzip.decompress` oracle (`Except.error` models a
raised decompression exception). -/
def processHead (g : List Nat → Except PyErr (List Nat))
    (scheme host headers bodyRaw : List Nat) : HttpStep :=
  match pyStatusCode headers with
  | none => HttpStep.parseError
  | some status_code =>
    if status_code = 404 then HttpStep.notFound
    else
      match (if status_code = 301 ∨ status_code = 302
             then (pySplit [13, 10] headers).find? (fun line => locTok.isPrefixOf line)
             else none) with
      | some line =>
        match (pySplit locTok line).get? 1 with
        | none => HttpStep.parseError
        | some seg =>
          let v := pyStrip seg
          HttpStep.redirect (if httpTok.isPrefixOf v then v else scheme ++ bytesOf "://" ++ host ++ v)
      | none =>
        if status_code ≠ 200 then HttpStep.otherStatus status_code
        else
          let b1 := if containsSub chunkedTok headers then process_chunked_body bodyRaw else bodyRaw
          if containsSub gzipTok headers then
            match g b1 with
            | Except.error _ => HttpStep.gzipError
            | Except.ok d => HttpStep.body d
          else HttpStep.body b1

/-- Full pure response processing of `get_http` on the raw byte stream read from
the socket: `headers, _, body = response.partition(b"\r\n\r\n")` followed by
`processHead`. -/
def processResponse (g : List Nat → Except PyErr (List Nat))
    (scheme host raw : List Nat) : HttpStep :=
  let p := pyPartition [13, 10, 13, 10] raw
  processHead g scheme host p.1 p.2

/-- The request builder of `get_http` (hw1.py lines 91-100), assembled exactly
as the Python string concatenation does: request line, `Host` (with `:{port}`
only when the port is non-default for the scheme), `User-Agent`, then
`Connection: close` and the blank line. -/
def build_request (host path : List Nat) (port : Int) (scheme : List Nat) : List Nat :=
  let host_header :=
    if (scheme = bytesOf "http" ∧ port ≠ 80) ∨ (scheme = bytesOf "https" ∧ port ≠ 443)
    then host ++ [58] ++ intToStrB port else host
  bytesOf "GET " ++ path ++ bytesOf " HTTP/1.1" ++ [13, 10] ++
    bytesOf "Host: " ++ host_header ++ [13, 10] ++
    bytesOf "User-Agent: BarebonesHTTP/1.1" ++ [13, 10] ++
    bytesOf "Connection: close" ++ [13, 10, 13, 10]

/-- Last stage of `parse_url`: the IDNA encoding of the hostname (hw1.py lines
44-48), with `idna` an oracle for `host.encode('idna')` (`none` models a raised
`UnicodeError`, which the source catches and turns into `return None`). -/
def parse_finish (idna : List Nat → Option (List Nat))
    (scheme host : List Nat) (port : Int) (path : List Nat) :
    Except PyErr (Option (List Nat × List Nat × Int × List Nat)) :=
  match idna host with
  | none => Except.ok none
  | some h2 => Except.ok (some (scheme, h2, port, path))

/-- Host/port/path extraction of `retrieve_url` after the scheme has been
stripped (hw1.py lines 22-48). -/
def parse_url_rest (scheme : List Nat) (idna : List Nat → Option (List Nat))
    (u : List Nat) : Except PyErr (Option (List Nat × List Nat × Int × List Nat)) :=
  let hp := match findSub [47] u with
    | none => (u, [47])
    | some i => (u.take i, u.drop i)
  match rfindByte 58 hp.1 with
  | some cp =>
    let port_str := hp.1.drop (cp + 1)
    let host1 := hp.1.take cp
    match pyInt port_str with
    | none => Except.ok none
    | some port => parse_finish idna scheme host1 port hp.2
  | none => parse_finish idna scheme hp.1 (if scheme = bytesOf "https" then 443 else 80) hp.2

/-- URL parsing of `retrieve_url` (hw1.py lines 12-48).  `Except.error` models
the `raise ValueError` on an unsupported scheme; `Except.ok none` models the
`return None` paths (invalid port, IDNA failure). -/
def parse_url (idna : List Nat → Option (List Nat)) (url : List Nat) :
    Except PyErr (Option (List Nat × List Nat × Int × List Nat)) :=
  if url.take 7 = bytesOf "http://" then parse_url_rest (bytesOf "http") idna (url.drop 7)
  else if url.take 8 = bytesOf "https://" then parse_url_rest (bytesOf "https") idna (url.drop 8)
  else Except.error PyErr.valueError

/-- Final comparison stage of `retrieve_url` (hw1.py lines 52-68): `None`
responses propagate as `None`; otherwise the page is dynamic (result `None`)
exactly when the `clean_response`-normalized bodies differ, and otherwise the
unnormalized first response is returned. -/
def retrieve_url_tail (response second_response : Option (List Nat)) : Option (List Nat) :=
  match response with
  | none => none
  | some r =>
    match second_response with
    | none => none
    | some r2 => if clean_response r ≠ clean_response r2 then none else some r

/-- The environment a fetch runs in: `server` maps the request target of one
`get_http` call to the raw response byte stream read off the socket
(`Except.error` models a socket/TLS exception), `gunzip` is the
`gzip.decompress` oracle, and `idna` the `host.encode('idna')` oracle. -/
structure Env where
  server : List Nat → List Nat → Int → List Nat → Except PyErr (List Nat)
  gunzip : List Nat → Except PyErr (List Nat)
  idna : List Nat → Option (List Nat)

/-- One `get_http` call (hw1.py lines 80-150) given `retr`, the continuation
modelling the recursive `retrieve_url` call on a redirect.  The overall result
is `none` when that recursion never returns; `some (Except.ok v)` is a normal
Python return with value `v`; `some (Except.error e)` would be an uncaught
exception — the `except Exception` handler at line 148 maps every exception
raised inside the body (socket errors, status-line parse errors, gzip errors)
to a normal `return None`. -/
def get_httpStep (env : Env) (retr : List Nat → Option (Except PyErr (Option (List Nat))))
    (host path : List Nat) (port : Int) (scheme : List Nat) :
    Option (Except PyErr (Option (List Nat))) :=
  match env.server host path port scheme with
  | Except.error _ => some (Except.ok none)
  | Except.ok raw =>
    match processResponse env.gunzip scheme host raw with
    | HttpStep.parseError => some (Except.ok none)
    | HttpStep.notFound => some (Except.ok none)
    | HttpStep.otherStatus _ => some (Except.ok none)
    | HttpStep.gzipError => some (Except.ok none)
    | HttpStep.body b => some (Except.ok (some b))
    | HttpStep.redirect u =>
      match retr u with
      | none => none
      | some (Except.error _) => some (Except.ok none)
      | some (Except.ok v) => some (Except.ok v)

/-- Model of `retrieve_url` (hw1.py lines 9-77), with `fuel` bounding the recursion
depth of the mutual `retrieve_url`/`get_http` redirect recursion: a result of
`none` means the call has not returned within that depth (the source recurses
without any bound of its own).  The `Except.error` match arms mirror the
`except` handlers at lines 69-77, which map every exception class that can
reach them to `return None`. -/
def retrieve_urlF (env : Env) (fuel : Nat) (url : List Nat) :
    Option (Except PyErr (Option (List Nat))) :=
  match fuel with
  | 0 => none
  | f + 1 =>
    match parse_url env.idna url with
    | Except.error _ => some (Except.ok none)
    | Except.ok none => some (Except.ok none)
    | Except.ok (some (scheme, host, port, path)) =>
      match get_httpStep env (fun u => retrieve_urlF env f u) host path port scheme with
      | none => none
      | some (Except.error _) => some (Except.ok none)
      | some (Except.ok response) =>
        match response with
        | none => some (Except.ok none)
        | some r1 =>
          match get_httpStep env (fun u => retrieve_urlF env f u) host path port scheme with
          | none => none
          | some (Except.error _) => some (Except.ok none)
          | some (Except.ok second) => some (Except.ok (retrieve_url_tail (some r1) second))

/-- ASCII code of the lowercase hex digit of value `d < 16`. -/
def hexDigit (d : Nat) : Nat := if d < 10 then 48 + d else 87 + d

/-- Fuel-indexed hex printer (fuel `n + 1` is always enough). -/
def toHexAux : Nat → Nat → List Nat
  | 0, _ => []
  | f + 1, n => if n < 16 then [hexDigit n] else toHexAux f (n / 16) ++ [hexDigit (n % 16)]

/-- Minimal lowercase hexadecimal spelling of `n`, as a byte string. -/
def toHexB (n : Nat) : List Nat := toHexAux (n + 1) n

/-- Correct chunked-framing encoding of one chunk: hex size line, CRLF, the
chunk bytes, CRLF. -/
def encodeChunk (c : List Nat) : List Nat := toHexB c.length ++ [13, 10] ++ c ++ [13, 10]

/-- Concatenated encodings of a list of chunks, without the terminator. -/
def encChunks (chunks : List (List Nat)) : List Nat := (chunks.map encodeChunk).flatten

/-- Correct chunked-framing encoding of a body split into the given (non-empty)
chunks: the chunk encodings followed by the `0` size line and the final CRLF. -/
def encodeChunked (chunks : List (List Nat)) : List Nat :=
  encChunks chunks ++ [48, 13, 10, 13, 10]

/-- Modelled from the spec (section 4.4, strategy 1), for comparison with the
source decoder: repeatedly read a hex chunk-size line terminated by CRLF; size
0 ends the stream; otherwise read exactly that many bytes and consume the
trailing CRLF; a missing size-line terminator, a non-hexadecimal size, missing
payload bytes, or a missing trailing CRLF is a `FramingError`, modelled as
`none`. -/
def chunkedDecodeClaimAux : Nat → List Nat → Option (List Nat)
  | 0, _ => none
  | f + 1, data =>
    match findSub [13, 10] data with
    | none => none
    | some e =>
      match pyIntHex (pyStrip (data.take e)) with
      | none => none
      | some 0 => some []
      | some (n + 1) =>
        let afterSize := data.drop (e + 2)
        if afterSize.length < n + 1 + 2 then none
        else if (afterSize.drop (n + 1)).take 2 ≠ [13, 10] then none
        else (chunkedDecodeClaimAux f (afterSize.drop (n + 1 + 2))).map
          (fun r => afterSize.take (n + 1) ++ r)

/-- Wrapper for `chunkedDecodeClaimAux` with always-sufficient fuel. -/
def chunkedDecodeClaim (data : List Nat) : Option (List Nat) :=
  chunkedDecodeClaimAux (data.length + 1) data

/-- Modelled from claim C5's words: the same request fields, but with the
`Connection` header placed before the `User-Agent` header. -/
def build_request_claimC5 (host path : List Nat) (port : Int) (scheme : List Nat) : List Nat :=
  let host_header :=
    if (scheme = bytesOf "http" ∧ port ≠ 80) ∨ (scheme = bytesOf "https" ∧ port ≠ 443)
    then host ++ [58] ++ intToStrB port else host
  bytesOf "GET " ++ path ++ bytesOf " HTTP/1.1" ++ [13, 10] ++
    bytesOf "Host: " ++ host_header ++ [13, 10] ++
    bytesOf "Connection: close" ++ [13, 10] ++
    bytesOf "User-Agent: BarebonesHTTP/1.1" ++ [13, 10, 13, 10]

/-- A 301 response redirecting to `loc`. -/
def chainRaw (loc : List Nat) : List Nat :=
  bytesOf "HTTP/1.1 301 Moved" ++ [13, 10] ++ bytesOf "Location: " ++ loc ++ [13, 10, 13, 10]

/-- A 200 response with connection-close-framed body `hello`. -/
def raw200hello : List Nat := bytesOf "HTTP/1.1 200 OK" ++ [13, 10, 13, 10] ++ bytesOf "hello"

/-- A deterministic server serving a chain of six redirects
`/r0 → /r1 → ... → /r6` followed by a 200 response. -/
def chainEnv : Env where
  server := fun _ path _ _ =>
    if path = bytesOf "/r6" then Except.ok raw200hello
    else if path = bytesOf "/r0" then Except.ok (chainRaw (bytesOf "/r1"))
    else if path = bytesOf "/r1" then Except.ok (chainRaw (bytesOf "/r2"))
    else if path = bytesOf "/r2" then Except.ok (chainRaw (bytesOf "/r3"))
    else if path = bytesOf "/r3" then Except.ok (chainRaw (bytesOf "/r4"))
    else if path = bytesOf "/r4" then Except.ok (chainRaw (bytesOf "/r5"))
    else if path = bytesOf "/r5" then Except.ok (chainRaw (bytesOf "/r6"))
    else Except.error PyErr.otherError
  gunzip := fun b => Except.ok b
  idna := fun h => some h

/-- A server that always answers with a 301 redirect to the absolute URL
`http://h/a`, producing a redirect cycle of length one. -/
def cycEnv : Env where
  server := fun _ _ _ _ => Except.ok (chainRaw (bytesOf "http://h/a"))
  gunzip := fun b => Except.ok b
  idna := fun h => some h

theorem findSub_crlf_before (l r : List Nat) (h : ∀ b ∈ l, b ≠ 13) :
    findSub [13, 10] (l ++ 13 :: 10 :: r) = some l.length := by
  induction l with
  | nil => simp [findSub, List.isPrefixOf]
  | cons x xs ih =>
    have hx : x ≠ 13 := h x (List.mem_cons_self x xs)
    have hpre : [13, 10].isPrefixOf (x :: (xs ++ 13 :: 10 :: r)) = false := by
      simp [List.isPrefixOf]
      intro hc
      exact absurd hc.symm hx
    simp [findSub, hpre, ih (fun b hb => h b (List.mem_cons_of_mem _ hb))]

theorem findSub_crlf_none (l : List Nat) (h : ∀ b ∈ l, b ≠ 13) :
    findSub [13, 10] l = none := by
  induction l with
  | nil => simp [findSub, List.isPrefixOf]
  | cons x xs ih =>
    have hx : x ≠ 13 := h x (List.mem_cons_self x xs)
    have hpre : [13, 10].isPrefixOf (x :: xs) = false := by
      simp [List.isPrefixOf]
      intro hc
      exact absurd hc.symm hx
    simp [findSub, hpre, ih (fun b hb => h b (List.mem_cons_of_mem _ hb))]

theorem dropWhile_all_false (p : Nat → Bool) (l : List Nat) (h : ∀ b ∈ l, p b = false) :
    l.dropWhile p = l := by
  cases l with
  | nil => rfl
  | cons x xs => simp [List.dropWhile_cons, h x (List.mem_cons_self x xs)]

theorem pyStrip_id (l : List Nat) (h : ∀ b ∈ l, isSpaceB b = false) : pyStrip l = l := by
  unfold pyStrip
  rw [dropWhile_all_false _ l h]
  rw [dropWhile_all_false _ l.reverse (fun b hb => h b (List.mem_reverse.mp hb))]
  exact List.reverse_reverse l

theorem hexDigit_props (d : Nat) (h : d < 16) :
    isHexDigitB (hexDigit d) = true ∧ isSpaceB (hexDigit d) = false ∧ hexDigit d ≠ 13 := by
  interval_cases d <;> decide

theorem hexVal_hexDigit (d : Nat) (h : d < 16) : hexVal (hexDigit d) = d := by
  interval_cases d <;> decide

theorem toHexAux_mem : ∀ f n, n < f → ∀ b ∈ toHexAux f n,
    isHexDigitB b = true ∧ isSpaceB b = false ∧ b ≠ 13 := by
  intro f
  induction f with
  | zero => intro n hn; omega
  | succ f ih =>
    intro n hn b hb
    by_cases h16 : n < 16
    · simp [toHexAux, h16] at hb
      subst hb
      exact hexDigit_props n h16
    · simp [toHexAux, h16] at hb
      rcases hb with hb | hb
      · have hdiv : n / 16 < f := by
          have h1 : n / 16 < n := Nat.div_lt_self (by omega) (by omega)
          omega
        exact ih (n / 16) hdiv b hb
      · subst hb
        exact hexDigit_props (n % 16) (Nat.mod_lt _ (by omega))

theorem toHexAux_ne_nil : ∀ f n, n < f → toHexAux f n ≠ [] := by
  intro f n hn
  cases f with
  | zero => omega
  | succ f =>
    by_cases h16 : n < 16 <;> simp [toHexAux, h16]

theorem valHex_toHexAux : ∀ f n, n < f → valHex (toHexAux f n) = n := by
  intro f
  induction f with
  | zero => intro n hn; omega
  | succ f ih =>
    intro n hn
    by_cases h16 : n < 16
    · simp [toHexAux, h16, valHex, hexVal_hexDigit n h16]
    · have hdiv : n / 16 < f := by
        have h1 : n / 16 < n := Nat.div_lt_self (by omega) (by omega)
        omega
      have := ih (n / 16) hdiv
      simp [toHexAux, h16, valHex, List.foldl_append] at this ⊢
      rw [this, hexVal_hexDigit (n % 16) (Nat.mod_lt _ (by omega))]
      omega

theorem toHexB_mem (n : Nat) : ∀ b ∈ toHexB n,
    isHexDigitB b = true ∧ isSpaceB b = false ∧ b ≠ 13 :=
  toHexAux_mem (n + 1) n (by omega)

theorem toHexB_ne_nil (n : Nat) : toHexB n ≠ [] := toHexAux_ne_nil (n + 1) n (by omega)

theorem hex_ne_underscore (b : Nat) (h : isHexDigitB b = true) : ¬ b = 95 := by
  intro he
  subst he
  exact absurd h (by decide)

theorem hexDigitsTail_of_hex (l : List Nat) (h : ∀ b ∈ l, isHexDigitB b = true) :
    hexDigitsTail l = true := by
  induction l with
  | nil => rfl
  | cons x rest ih =>
    have hx := h x (List.mem_cons_self x rest)
    rw [hexDigitsTail.eq_def]
    simp only []
    rw [if_neg (hex_ne_underscore x hx)]
    simp [hx, ih (fun b hb => h b (List.mem_cons_of_mem _ hb))]

theorem hexBody_of_hex (l : List Nat) (hne : l ≠ [])
    (h : ∀ b ∈ l, isHexDigitB b = true) : hexBody l = true := by
  obtain ⟨x, rest, hx⟩ : ∃ x rest, l = x :: rest := by
    cases lc : l with
    | nil => exact absurd lc hne
    | cons x rest => exact ⟨x, rest, rfl⟩
  subst hx
  have hxh : isHexDigitB x = true := h x (List.mem_cons_self x rest)
  have hpre : ¬ ((x :: rest).take 2 = [48, 120] ∨ (x :: rest).take 2 = [48, 88]) := by
    cases rest with
    | nil => simp
    | cons y rest2 =>
      have hyh : isHexDigitB y = true :=
        h y (List.mem_cons_of_mem _ (List.mem_cons_self y rest2))
      simp
      constructor
      · intro _ he
        subst he
        exact absurd hyh (by decide)
      · intro _ he
        subst he
        exact absurd hyh (by decide)
  unfold hexBody
  rw [if_neg hpre]
  simp [hxh, hexDigitsTail_of_hex rest (fun b hb => h b (List.mem_cons_of_mem _ hb))]

theorem pyIntHex_toHexB (n : Nat) : pyIntHex (toHexB n) = some n := by
  have hmem : ∀ b ∈ toHexB n, isHexDigitB b = true := fun b hb => (toHexB_mem n b hb).1
  obtain ⟨x, rest, hx⟩ : ∃ x rest, toHexB n = x :: rest := by
    cases ht : toHexB n with
    | nil => exact absurd ht (toHexB_ne_nil n)
    | cons x rest => exact ⟨x, rest, rfl⟩
  have hxh : isHexDigitB x = true := hmem x (by rw [hx]; exact List.mem_cons_self x rest)
  have hsign : ¬ (toHexB n).take 1 = [43] := by
    intro he
    rw [hx] at he
    simp at he
    subst he
    exact absurd hxh (by decide)
  have hpre : ¬ ((toHexB n).take 2 = [48, 120] ∨ (toHexB n).take 2 = [48, 88]) := by
    rw [hx]
    cases rest with
    | nil => simp
    | cons y rest2 =>
      have hyh : isHexDigitB y = true := hmem y
        (by rw [hx]; exact List.mem_cons_of_mem _ (List.mem_cons_self y rest2))
      simp
      constructor
      · intro _ he
        subst he
        exact absurd hyh (by decide)
      · intro _ he
        subst he
        exact absurd hyh (by decide)
  have hfil : (toHexB n).filter (fun b => b != 95) = toHexB n := by
    rw [List.filter_eq_self]
    intro b hb
    simpa using hex_ne_underscore b (hmem b hb)
  unfold pyIntHex
  rw [if_neg hsign, if_pos (hexBody_of_hex (toHexB n) (toHexB_ne_nil n) hmem)]
  unfold hexBodyVal
  rw [if_neg hpre, hfil]
  exact congrArg some (valHex_toHexAux (n + 1) n (by omega))

theorem pcbAux_term (f : Nat) (rest acc : List Nat) :
    pcbAux (f + 1) ([48, 13, 10, 13, 10] ++ rest) acc = acc := by
  have hf : findSub [13, 10] ([48, 13, 10, 13, 10] ++ rest) = some 1 := by
    have := findSub_crlf_before [48] (13 :: 10 :: rest) (by decide)
    simpa using this
  have ht : ([48, 13, 10, 13, 10] ++ rest).take 1 = [48] := by simp
  have hp : pyIntHex (pyStrip [48]) = some 0 := by decide
  simp only [List.cons_append, List.nil_append] at hf ht
  simp [pcbAux, hf, ht, hp]

/-- The remaining data begins with a chunk-size line that the program itself
rejects: either no CRLF terminator at all (including the empty remainder,
where the loop guard stops), or a size string on which Python's `int(x, 16)`
raises `ValueError` (`pyHexAccepts` is the faithful acceptance test, so
accepted forms such as `0x3`, `-7` or `3_f` are not in this domain). -/
def badSize (tail : List Nat) : Prop :=
  findSub [13, 10] tail = none ∨
    ∃ e, findSub [13, 10] tail = some e ∧ pyHexAccepts (tail.take e) = false

theorem take1_eq_cons (t : List Nat) (b : Nat) (h : t.take 1 = [b]) :
    ∃ rest, t = b :: rest := by
  cases t with
  | nil => simp at h
  | cons a as =>
    simp at h
    exact ⟨as, by rw [h]⟩

/-- Everything `pyIntHex` accepts, Python's `int(x, 16)` accepts: so on a size
line with `pyHexAccepts = false` the model parser also fails. -/
theorem pyIntHex_none_of_reject (x : List Nat) (h : pyHexAccepts x = false) :
    pyIntHex (pyStrip x) = none := by
  unfold pyHexAccepts at h
  unfold pyIntHex
  by_cases h43 : (pyStrip x).take 1 = [43]
  · rw [if_pos (Or.inl h43)] at h
    rw [if_pos h43, if_neg (by rw [h]; simp)]
  · by_cases h45 : (pyStrip x).take 1 = [45]
    · obtain ⟨rest, hr⟩ := take1_eq_cons (pyStrip x) 45 h45
      have hb : hexBody (pyStrip x) = false := by
        rw [hr]
        unfold hexBody
        rw [if_neg (by simp)]
        simp [show isHexDigitB 45 = false from by decide]
      rw [if_neg h43, if_neg (by rw [hb]; simp)]
    · rw [if_neg (by simp [h43, h45])] at h
      rw [if_neg h43, if_neg (by rw [h]; simp)]

theorem pcbAux_bad (f : Nat) (tail acc : List Nat) (h : badSize tail) :
    pcbAux f tail acc = acc := by
  cases f with
  | zero => rfl
  | succ f =>
    rcases h with h | ⟨e, he, hp⟩
    · simp [pcbAux, h]
    · simp [pcbAux, he, pyIntHex_none_of_reject (tail.take e) hp]

theorem pcbAux_chunk (f : Nat) (c rest acc : List Nat) (hc : c ≠ []) :
    pcbAux (f + 1) (encodeChunk c ++ rest) acc = pcbAux f rest (acc ++ c) := by
  have hmem : ∀ b ∈ toHexB c.length, b ≠ 13 := fun b hb => (toHexB_mem c.length b hb).2.2
  have hsp : ∀ b ∈ toHexB c.length, isSpaceB b = false :=
    fun b hb => (toHexB_mem c.length b hb).2.1
  have hf : findSub [13, 10] (encodeChunk c ++ rest) = some (toHexB c.length).length := by
    have := findSub_crlf_before (toHexB c.length) (c ++ 13 :: 10 :: rest) hmem
    have he : encodeChunk c ++ rest = toHexB c.length ++ 13 :: 10 :: (c ++ 13 :: 10 :: rest) := by
      simp [encodeChunk]
    rw [he]
    exact this
  have htake : (encodeChunk c ++ rest).take (toHexB c.length).length = toHexB c.length := by
    have he : encodeChunk c ++ rest
        = toHexB c.length ++ ([13, 10] ++ c ++ [13, 10] ++ rest) := by
      simp [encodeChunk]
    rw [he, List.take_left]
  have hparse : pyIntHex (pyStrip ((encodeChunk c ++ rest).take (toHexB c.length).length))
      = some c.length := by
    rw [htake, pyStrip_id _ hsp, pyIntHex_toHexB]
  have hdrop2 : (encodeChunk c ++ rest).drop ((toHexB c.length).length + 2)
      = c ++ [13, 10] ++ rest := by
    have he : encodeChunk c ++ rest
        = (toHexB c.length ++ [13, 10]) ++ (c ++ [13, 10] ++ rest) := by
      simp [encodeChunk]
    have hl : (toHexB c.length ++ [13, 10]).length = (toHexB c.length).length + 2 := by
      simp
    rw [he, ← hl, List.drop_left]
  have hchunk : ((encodeChunk c ++ rest).drop ((toHexB c.length).length + 2)).take c.length
      = c := by
    rw [hdrop2]
    have he : c ++ [13, 10] ++ rest = c ++ ([13, 10] ++ rest) := by simp
    rw [he, List.take_left]
  have hdropall : (encodeChunk c ++ rest).drop ((toHexB c.length).length + 2 + c.length + 2)
      = rest := by
    have he : encodeChunk c ++ rest = (toHexB c.length ++ [13, 10] ++ c ++ [13, 10]) ++ rest := by
      simp [encodeChunk]
    have hl : (toHexB c.length ++ [13, 10] ++ c ++ [13, 10]).length
        = (toHexB c.length).length + 2 + c.length + 2 := by
      simp
      omega
    rw [he, ← hl, List.drop_left]
  have hne : c.length ≠ 0 := by
    simpa [List.length_eq_zero] using hc
  simp [pcbAux, hf, hparse, hne, hchunk, hdropall]

theorem encChunks_len_ge (chunks : List (List Nat)) :
    chunks.length ≤ (encChunks chunks).length := by
  induction chunks with
  | nil => simp [encChunks]
  | cons c cs ih =>
    have h1 : encChunks (c :: cs) = encodeChunk c ++ encChunks cs := by
      simp [encChunks]
    have h2 : 1 ≤ (encodeChunk c).length := by
      simp [encodeChunk]
      omega
    simp [h1]
    omega

theorem pcbAux_encode (chunks : List (List Nat)) :
    ∀ f acc, (∀ c ∈ chunks, c ≠ []) →
      pcbAux (f + chunks.length + 1) (encChunks chunks ++ [48, 13, 10, 13, 10]) acc
        = acc ++ chunks.flatten := by
  induction chunks with
  | nil =>
    intro f acc _
    simpa [encChunks] using pcbAux_term (f) [] acc
  | cons c cs ih =>
    intro f acc h
    have he : encChunks (c :: cs) ++ [48, 13, 10, 13, 10]
        = encodeChunk c ++ (encChunks cs ++ [48, 13, 10, 13, 10]) := by
      simp [encChunks]
    have hfuel : f + (c :: cs).length + 1 = (f + cs.length + 1) + 1 := by
      simp
      omega
    rw [he, hfuel, pcbAux_chunk _ c _ acc (h c (List.mem_cons_self c cs))]
    rw [ih f (acc ++ c) (fun d hd => h d (List.mem_cons_of_mem _ hd))]
    simp

theorem pcbAux_encode_bad (chunks : List (List Nat)) :
    ∀ f acc tail, (∀ c ∈ chunks, c ≠ []) → badSize tail →
      pcbAux (f + chunks.length) (encChunks chunks ++ tail) acc = acc ++ chunks.flatten := by
  induction chunks with
  | nil =>
    intro f acc tail _ hb
    simpa [encChunks] using pcbAux_bad f tail acc hb
  | cons c cs ih =>
    intro f acc tail h hb
    have he : encChunks (c :: cs) ++ tail = encodeChunk c ++ (encChunks cs ++ tail) := by
      simp [encChunks]
    have hfuel : f + (c :: cs).length = (f + cs.length) + 1 := by
      simp
      omega
    rw [he, hfuel, pcbAux_chunk _ c _ acc (h c (List.mem_cons_self c cs))]
    rw [ih f (acc ++ c) tail (fun d hd => h d (List.mem_cons_of_mem _ hd)) hb]
    simp

/-- Claim C1: for every body correctly encoded with the chunked framing
strategy (any splitting into non-empty chunks, hex size lines, a `0` size line
terminating the stream), `process_chunked_body` reconstructs the body
byte-for-byte — chunk payloads are consumed by the declared length, so payload
bytes containing CRLF pairs or chunk-size-like substrings are returned
verbatim. -/
theorem claim_C1_chunked_roundtrip (chunks : List (List Nat))
    (h : ∀ c ∈ chunks, c ≠ []) :
    process_chunked_body (encodeChunked chunks) = chunks.flatten := by
  unfold process_chunked_body encodeChunked
  obtain ⟨f, hf⟩ : ∃ f,
      (encChunks chunks ++ [48, 13, 10, 13, 10]).length + 1 = f + chunks.length + 1 := by
    have := encChunks_len_ge chunks
    refine ⟨(encChunks chunks ++ [48, 13, 10, 13, 10]).length - chunks.length, ?_⟩
    simp
    omega
  rw [hf]
  simpa using pcbAux_encode chunks f [] h

theorem claim_C1_witness :
    (∀ c ∈ [[97, 13, 10, 13, 10, 98], [49, 13, 10, 97]], c ≠ ([] : List Nat)) ∧
      process_chunked_body (encodeChunked [[97, 13, 10, 13, 10, 98], [49, 13, 10, 97]])
        = [97, 13, 10, 13, 10, 98, 49, 13, 10, 97] := by
  refine ⟨by decide, ?_⟩
  rw [claim_C1_chunked_roundtrip [[97, 13, 10, 13, 10, 98], [49, 13, 10, 97]] (by decide)]
  decide

/-- Counterexample to claim C6: on the chunked input `3\r\nabc\r\nZZ\r\n`,
whose second chunk-size line `ZZ` is not hexadecimal, the spec's decoder
signals a `FramingError`, but `process_chunked_body` returns the partial body
`abc` — a non-empty (partial) body, not an error. -/
theorem claim_C6_counterexample :
    chunkedDecodeClaim [51, 13, 10, 97, 98, 99, 13, 10, 90, 90, 13, 10] = none ∧
      process_chunked_body [51, 13, 10, 97, 98, 99, 13, 10, 90, 90, 13, 10] = [97, 98, 99] ∧
      [97, 98, 99] ≠ ([] : List Nat) := by
  refine ⟨by decide, by decide, by decide⟩

/-- Claim C6 as amended: on an input consisting of correctly encoded chunks
followed by a chunk-size line the program itself rejects — a line missing its
CRLF terminator, or a size string on which Python's `int(x, 16)` raises
`ValueError` (`pyHexAccepts = false`; this is "non-hexadecimal" under Python's
own semantics, so accepted spellings such as `0x3`, `-7` or `3_f` are outside
this domain) — `process_chunked_body` does not fail: it stops and returns the
body bytes accumulated from the chunks before the rejected line (a possibly
partial body). -/
theorem claim_C6_amended (chunks : List (List Nat)) (tail : List Nat)
    (h : ∀ c ∈ chunks, c ≠ []) (hb : badSize tail) :
    process_chunked_body (encChunks chunks ++ tail) = chunks.flatten := by
  unfold process_chunked_body
  obtain ⟨f, hf⟩ : ∃ f, (encChunks chunks ++ tail).length + 1 = f + chunks.length := by
    have := encChunks_len_ge chunks
    refine ⟨(encChunks chunks ++ tail).length + 1 - chunks.length, ?_⟩
    simp
    omega
  rw [hf]
  simpa using pcbAux_encode_bad chunks f [] tail h hb

theorem claim_C6_witness :
    badSize [90, 90, 13, 10] ∧
      process_chunked_body (encChunks [[97, 98, 99]] ++ [90, 90, 13, 10]) = [97, 98, 99] := by
  have hb : badSize [90, 90, 13, 10] := Or.inr ⟨2, by decide, by decide⟩
  refine ⟨hb, ?_⟩
  rw [claim_C6_amended [[97, 98, 99]] [90, 90, 13, 10] (by decide) hb]
  decide

theorem pyPartition_split (hs b : List Nat)
    (hD : findSub [13, 10, 13, 10] (hs ++ 13 :: 10 :: 13 :: 10 :: b) = some hs.length) :
    pyPartition [13, 10, 13, 10] (hs ++ 13 :: 10 :: 13 :: 10 :: b) = (hs, b) := by
  unfold pyPartition
  rw [hD]
  have ht : (hs ++ 13 :: 10 :: 13 :: 10 :: b).take hs.length = hs := by
    have he : hs ++ 13 :: 10 :: 13 :: 10 :: b = hs ++ (13 :: 10 :: 13 :: 10 :: b) := rfl
    rw [he, List.take_left]
  have hd : (hs ++ 13 :: 10 :: 13 :: 10 :: b).drop (hs.length + 4) = b := by
    have he : hs ++ 13 :: 10 :: 13 :: 10 :: b = (hs ++ [13, 10, 13, 10]) ++ b := by simp
    have hl : (hs ++ [13, 10, 13, 10]).length = hs.length + 4 := by simp
    rw [he, ← hl, List.drop_left]
  simp only []
  rw [show ([13, 10, 13, 10] : List Nat).length = 4 from rfl]
  rw [ht, hd]

theorem processResponse_split (g : List Nat → Except PyErr (List Nat)) (sc h hs b : List Nat)
    (hD : findSub [13, 10, 13, 10] (hs ++ 13 :: 10 :: 13 :: 10 :: b) = some hs.length) :
    processResponse g sc h (hs ++ 13 :: 10 :: 13 :: 10 :: b) = processHead g sc h hs b := by
  unfold processResponse
  rw [pyPartition_split hs b hD]

theorem pySplit_head_before (sl r : List Nat) (h : ∀ b ∈ sl, b ≠ 13) :
    (pySplit [13, 10] (sl ++ 13 :: 10 :: r)).headD [] = sl := by
  have hfind := findSub_crlf_before sl r h
  have ht : (sl ++ 13 :: 10 :: r).take sl.length = sl := by
    have he : sl ++ 13 :: 10 :: r = sl ++ (13 :: 10 :: r) := rfl
    rw [he, List.take_left]
  simp [pySplit, pySplitAux, hfind, ht]

theorem pySplit_head_none (sl : List Nat) (h : ∀ b ∈ sl, b ≠ 13) :
    (pySplit [13, 10] sl).headD [] = sl := by
  have hfind := findSub_crlf_none sl h
  simp [pySplit, pySplitAux, hfind]

theorem pyStatusCode_extend (sl r : List Nat) (h : ∀ b ∈ sl, b ≠ 13) :
    pyStatusCode (sl ++ 13 :: 10 :: r) = pyStatusCode sl := by
  unfold pyStatusCode
  rw [pySplit_head_before sl r h, pySplit_head_none sl h]

theorem processHead_200 (g : List Nat → Except PyErr (List Nat)) (sc h hs b : List Nat)
    (hSt : pyStatusCode hs = some 200) :
    processHead g sc h hs b =
      (let b1 := if containsSub chunkedTok hs then process_chunked_body b else b
       if containsSub gzipTok hs then
         match g b1 with
         | Except.error _ => HttpStep.gzipError
         | Except.ok d => HttpStep.body d
       else HttpStep.body b1) := by
  unfold processHead
  rw [hSt]
  norm_num

theorem processHead_404 (g : List Nat → Except PyErr (List Nat)) (sc h hs b : List Nat)
    (hSt : pyStatusCode hs = some 404) :
    processHead g sc h hs b = HttpStep.notFound := by
  unfold processHead
  rw [hSt]
  norm_num

theorem processHead_other (g : List Nat → Except PyErr (List Nat)) (sc h hs b : List Nat)
    (code : Int) (hSt : pyStatusCode hs = some code)
    (h200 : code ≠ 200) (h301 : code ≠ 301) (h302 : code ≠ 302) (h404 : code ≠ 404) :
    processHead g sc h hs b = HttpStep.otherStatus code := by
  unfold processHead
  rw [hSt]
  simp [h200, h301, h302, h404]

theorem isPrefixOf_append_self (l m : List Nat) : l.isPrefixOf (l ++ m) = true := by
  induction l with
  | nil => simp [List.isPrefixOf]
  | cons x xs ih => simp [List.isPrefixOf, ih]

theorem processHead_redirect (g : List Nat → Except PyErr (List Nat))
    (sc h hs b line seg : List Nat) (code : Int)
    (hSt : pyStatusCode hs = some code) (hc : code = 301 ∨ code = 302)
    (hFind : (pySplit [13, 10] hs).find? (fun l => locTok.isPrefixOf l) = some line)
    (hSeg : (pySplit locTok line).get? 1 = some seg) :
    processHead g sc h hs b = HttpStep.redirect
      (if httpTok.isPrefixOf (pyStrip seg) then pyStrip seg
       else sc ++ bytesOf "://" ++ h ++ pyStrip seg) := by
  unfold processHead
  rw [hSt]
  simp only [List.get?_eq_getElem?] at hSeg
  rcases hc with rfl | rfl <;> simp [hFind, hSeg]

/-- A 200 header block carrying a `Content-Length` header with value bytes
`cl`. -/
def clHeaders (cl : List Nat) : List Nat :=
  bytesOf "HTTP/1.1 200 OK" ++ 13 :: 10 :: (bytesOf "Content-Length: " ++ cl)

/-- Counterexample to claim C2: the raw response declares `Content-Length: 5`
but only three body bytes follow the header delimiter; instead of a
`FramingError` (truncated body), the framer returns the three-byte body
`abc`. -/
theorem claim_C2_counterexample :
    processResponse (fun x => Except.ok x) (bytesOf "http") (bytesOf "h")
        (bytesOf "HTTP/1.1 200 OK\r\nContent-Length: 5\r\n\r\nabc")
      = HttpStep.body (bytesOf "abc") ∧ (bytesOf "abc").length ≠ 5 := by
  refine ⟨by decide, by decide⟩

/-- Claim C2 as amended: `get_http` never reads the `Content-Length` header.
For a 200 response whose header block declares `Content-Length` with any value
bytes `cl`, the framed body is exactly the byte sequence after the header
delimiter, whatever its length: a body shorter than the declared length is
returned as-is (never a `FramingError`), and bytes beyond the declared length
are not cut off. -/
theorem claim_C2_amended (g : List Nat → Except PyErr (List Nat)) (sc h cl b : List Nat)
    (hD : findSub [13, 10, 13, 10] (clHeaders cl ++ 13 :: 10 :: 13 :: 10 :: b)
      = some (clHeaders cl).length)
    (hch : containsSub chunkedTok (clHeaders cl) = false)
    (hgz : containsSub gzipTok (clHeaders cl) = false) :
    processResponse g sc h (clHeaders cl ++ 13 :: 10 :: 13 :: 10 :: b) = HttpStep.body b := by
  have hSt : pyStatusCode (clHeaders cl) = some 200 := by
    unfold clHeaders
    rw [pyStatusCode_extend _ _ (by decide)]
    decide
  rw [processResponse_split g sc h _ b hD, processHead_200 g sc h _ b hSt]
  simp [hch, hgz]

theorem claim_C2_witness :
    processResponse (fun x => Except.ok x) (bytesOf "http") (bytesOf "h")
        (clHeaders (bytesOf "5") ++ 13 :: 10 :: 13 :: 10 :: bytesOf "abc")
      = HttpStep.body (bytesOf "abc") :=
  claim_C2_amended (fun x => Except.ok x) (bytesOf "http") (bytesOf "h") (bytesOf "5")
    (bytesOf "abc") (by decide) (by decide) (by decide)

/-- Counterexample to claim C7: a 200 response whose headers carry
`transfer-encoding: chunked` and `content-encoding: GZIP` (case variants of the
tokens the claim says are recognized case-insensitively).  Neither is applied:
the returned body is the undecoded chunk stream (not the decoded `abc`), and
the gzip oracle — which here would return `[1, 2, 3]` — is never invoked. -/
theorem claim_C7_counterexample :
    processResponse (fun _ => Except.ok [1, 2, 3]) (bytesOf "http") (bytesOf "h")
        (bytesOf "HTTP/1.1 200 OK\r\ntransfer-encoding: chunked\r\ncontent-encoding: GZIP\r\n\r\n3\r\nabc\r\n0\r\n\r\n")
      = HttpStep.body (bytesOf "3\r\nabc\r\n0\r\n\r\n") ∧
    bytesOf "3\r\nabc\r\n0\r\n\r\n" ≠ bytesOf "abc" ∧
    bytesOf "3\r\nabc\r\n0\r\n\r\n" ≠ [1, 2, 3] := by
  refine ⟨by decide, by decide, by decide⟩

/-- Claim C7 as amended: framing and encoding detection are exact
case-sensitive substring checks on the raw header block.  For a 200 response,
chunked decoding is applied precisely when the exact bytes
`Transfer-Encoding: chunked` occur in the header block, and the gzip oracle is
applied to the framed body precisely when the exact bytes
`Content-Encoding: gzip` occur; any other casing leaves the body
untouched. -/
theorem claim_C7_amended (g : List Nat → Except PyErr (List Nat)) (sc h hs b : List Nat)
    (hD : findSub [13, 10, 13, 10] (hs ++ 13 :: 10 :: 13 :: 10 :: b) = some hs.length)
    (hSt : pyStatusCode hs = some 200) :
    processResponse g sc h (hs ++ 13 :: 10 :: 13 :: 10 :: b) =
      (let b1 := if containsSub chunkedTok hs then process_chunked_body b else b
       if containsSub gzipTok hs then
         match g b1 with
         | Except.error _ => HttpStep.gzipError
         | Except.ok d => HttpStep.body d
       else HttpStep.body b1) :=
  (processResponse_split g sc h hs b hD).trans (processHead_200 g sc h hs b hSt)

theorem claim_C7_witness :
    processResponse (fun x => Except.ok x) (bytesOf "http") (bytesOf "h")
        (bytesOf "HTTP/1.1 200 OK\r\nTransfer-Encoding: chunked"
          ++ 13 :: 10 :: 13 :: 10 :: bytesOf "3\r\nabc\r\n0\r\n\r\n")
      = HttpStep.body (bytesOf "abc") := by
  rw [claim_C7_amended (fun x => Except.ok x) (bytesOf "http") (bytesOf "h")
    (bytesOf "HTTP/1.1 200 OK\r\nTransfer-Encoding: chunked") (bytesOf "3\r\nabc\r\n0\r\n\r\n")
    (by decide) (by decide)]
  decide

/-- Claim C8: for a 301/302 response whose header block contains a `Location:`
line, redirect resolution is as claimed.  A Location value beginning with a
recognized scheme prefix (`http://` or `https://`) replaces the target
outright; a value beginning with `/` resolves to
`{scheme}://{host}{value}`, substituting only the path component. -/
theorem claim_C8_location_resolution (g : List Nat → Except PyErr (List Nat))
    (sc h hs b line seg : List Nat) (code : Int)
    (hD : findSub [13, 10, 13, 10] (hs ++ 13 :: 10 :: 13 :: 10 :: b) = some hs.length)
    (hSt : pyStatusCode hs = some code) (hc : code = 301 ∨ code = 302)
    (hFind : (pySplit [13, 10] hs).find? (fun l => locTok.isPrefixOf l) = some line)
    (hSeg : (pySplit locTok line).get? 1 = some seg) :
    (∀ r, pyStrip seg = bytesOf "http://" ++ r →
      processResponse g sc h (hs ++ 13 :: 10 :: 13 :: 10 :: b)
        = HttpStep.redirect (pyStrip seg)) ∧
    (∀ r, pyStrip seg = bytesOf "https://" ++ r →
      processResponse g sc h (hs ++ 13 :: 10 :: 13 :: 10 :: b)
        = HttpStep.redirect (pyStrip seg)) ∧
    (∀ r, pyStrip seg = 47 :: r →
      processResponse g sc h (hs ++ 13 :: 10 :: 13 :: 10 :: b)
        = HttpStep.redirect (sc ++ bytesOf "://" ++ h ++ pyStrip seg)) := by
  have base := (processResponse_split g sc h hs b hD).trans
    (processHead_redirect g sc h hs b line seg code hSt hc hFind hSeg)
  refine ⟨?_, ?_, ?_⟩
  · intro r hv
    have hpre : httpTok.isPrefixOf (pyStrip seg) = true := by
      rw [hv, show bytesOf "http://" = httpTok ++ [58, 47, 47] from by decide,
        List.append_assoc]
      exact isPrefixOf_append_self httpTok ([58, 47, 47] ++ r)
    rw [base, if_pos hpre]
  · intro r hv
    have hpre : httpTok.isPrefixOf (pyStrip seg) = true := by
      rw [hv, show bytesOf "https://" = httpTok ++ [115, 58, 47, 47] from by decide,
        List.append_assoc]
      exact isPrefixOf_append_self httpTok ([115, 58, 47, 47] ++ r)
    rw [base, if_pos hpre]
  · intro r hv
    have hpre : httpTok.isPrefixOf (pyStrip seg) = false := by
      rw [hv, show httpTok = 104 :: [116, 116, 112] from by decide]
      simp [List.isPrefixOf]
    rw [base, if_neg (by simp [hpre])]

theorem claim_C8_witness :
    processResponse (fun x => Except.ok x) (bytesOf "http") (bytesOf "host.example")
        (bytesOf "HTTP/1.1 301 Moved\r\nLocation: /new/path"
          ++ 13 :: 10 :: 13 :: 10 :: [])
      = HttpStep.redirect (bytesOf "http" ++ bytesOf "://" ++ bytesOf "host.example"
          ++ bytesOf "/new/path") := by
  have h3 := (claim_C8_location_resolution (fun x => Except.ok x) (bytesOf "http")
    (bytesOf "host.example") (bytesOf "HTTP/1.1 301 Moved\r\nLocation: /new/path") []
    (bytesOf "Location: /new/path") (bytesOf " /new/path") 301
    (by decide) (by decide) (Or.inl rfl) (by decide) (by decide)).2.2
  have := h3 (bytesOf "new/path") (by decide)
  rw [this]
  have hv : pyStrip (bytesOf " /new/path") = bytesOf "/new/path" := by decide
  rw [hv]

/-- Claim C9: per-hop status handling.  A 404 response is classified as the
not-found failure branch (no body is produced); any other status that is
neither 200 nor a redirect is classified as the unexpected-status branch
carrying that status code (the code appears in its log message, and `get_http`
returns `None`); a 200 response with `Content-Length: 0` and no body bytes
yields the empty decoded body, a success. -/
theorem claim_C9_status_handling :
    (∀ (g : List Nat → Except PyErr (List Nat)) (sc h hs b : List Nat),
      findSub [13, 10, 13, 10] (hs ++ 13 :: 10 :: 13 :: 10 :: b) = some hs.length →
      pyStatusCode hs = some 404 →
      processResponse g sc h (hs ++ 13 :: 10 :: 13 :: 10 :: b) = HttpStep.notFound) ∧
    (∀ (g : List Nat → Except PyErr (List Nat)) (sc h hs b : List Nat) (code : Int),
      findSub [13, 10, 13, 10] (hs ++ 13 :: 10 :: 13 :: 10 :: b) = some hs.length →
      pyStatusCode hs = some code → code ≠ 200 → code ≠ 301 → code ≠ 302 → code ≠ 404 →
      processResponse g sc h (hs ++ 13 :: 10 :: 13 :: 10 :: b)
        = HttpStep.otherStatus code) ∧
    (∀ (g : List Nat → Except PyErr (List Nat)) (sc h : List Nat),
      processResponse g sc h (bytesOf "HTTP/1.1 200 OK\r\nContent-Length: 0\r\n\r\n")
        = HttpStep.body []) := by
  refine ⟨?_, ?_, ?_⟩
  · intro g sc h hs b hD hSt
    rw [processResponse_split g sc h hs b hD]
    exact processHead_404 g sc h hs b hSt
  · intro g sc h hs b code hD hSt h200 h301 h302 h404
    rw [processResponse_split g sc h hs b hD]
    exact processHead_other g sc h hs b code hSt h200 h301 h302 h404
  · intro g sc h
    have he : bytesOf "HTTP/1.1 200 OK\r\nContent-Length: 0\r\n\r\n"
        = bytesOf "HTTP/1.1 200 OK\r\nContent-Length: 0" ++ 13 :: 10 :: 13 :: 10 :: [] := by
      decide
    rw [he, processResponse_split g sc h _ _ (by decide),
      processHead_200 g sc h _ _ (by decide)]
    simp [show containsSub chunkedTok (bytesOf "HTTP/1.1 200 OK\r\nContent-Length: 0") = false
        from by decide,
      show containsSub gzipTok (bytesOf "HTTP/1.1 200 OK\r\nContent-Length: 0") = false
        from by decide]

theorem claim_C9_witness :
    processResponse (fun x => Except.ok x) (bytesOf "http") (bytesOf "h")
        (bytesOf "HTTP/1.1 404 Not Found" ++ 13 :: 10 :: 13 :: 10 :: bytesOf "gone")
      = HttpStep.notFound ∧
    processResponse (fun x => Except.ok x) (bytesOf "http") (bytesOf "h")
        (bytesOf "HTTP/1.1 500 Oops" ++ 13 :: 10 :: 13 :: 10 :: bytesOf "boom")
      = HttpStep.otherStatus 500 ∧
    processResponse (fun x => Except.ok x) (bytesOf "http") (bytesOf "h")
        (bytesOf "HTTP/1.1 200 OK\r\nContent-Length: 0\r\n\r\n")
      = HttpStep.body [] :=
  ⟨claim_C9_status_handling.1 (fun x => Except.ok x) (bytesOf "http") (bytesOf "h")
      (bytesOf "HTTP/1.1 404 Not Found") (bytesOf "gone") (by decide) (by decide),
   claim_C9_status_handling.2.1 (fun x => Except.ok x) (bytesOf "http") (bytesOf "h")
      (bytesOf "HTTP/1.1 500 Oops") (bytesOf "boom") 500 (by decide) (by decide)
      (by decide) (by decide) (by decide) (by decide),
   claim_C9_status_handling.2.2 (fun x => Except.ok x) (bytesOf "http") (bytesOf "h")⟩

/-- Counterexample to claim C5: at the concrete target
`host = h, path = /, port = 80, scheme = http`, the bytes the program builds
differ from the byte sequence the claim states (which places `Connection:
close` before `User-Agent`): the program emits `User-Agent` first. -/
theorem claim_C5_counterexample :
    build_request (bytesOf "h") (bytesOf "/") 80 (bytesOf "http")
      ≠ build_request_claimC5 (bytesOf "h") (bytesOf "/") 80 (bytesOf "http") := by
  decide

/-- Claim C5 as amended: for either scheme the request builder produces exactly
`GET {path} HTTP/1.1\r\nHost: {host}[:{port} if non-default]\r\nUser-Agent:
BarebonesHTTP/1.1\r\nConnection: close\r\n\r\n` — the same lines as claimed but
with `User-Agent` before `Connection: close` — deterministically and with no
body. -/
theorem claim_C5_amended (host path : List Nat) (port : Int) (scheme : List Nat) :
    build_request host path port scheme =
      bytesOf "GET " ++ path ++ bytesOf " HTTP/1.1\r\nHost: " ++
        (if (scheme = bytesOf "http" ∧ port ≠ 80) ∨ (scheme = bytesOf "https" ∧ port ≠ 443)
         then host ++ [58] ++ intToStrB port else host) ++
        bytesOf "\r\nUser-Agent: BarebonesHTTP/1.1\r\nConnection: close\r\n\r\n" := by
  have e1 : bytesOf " HTTP/1.1\r\nHost: "
      = bytesOf " HTTP/1.1" ++ [13, 10] ++ bytesOf "Host: " := by decide
  have e2 : bytesOf "\r\nUser-Agent: BarebonesHTTP/1.1\r\nConnection: close\r\n\r\n"
      = [13, 10] ++ bytesOf "User-Agent: BarebonesHTTP/1.1" ++ [13, 10]
        ++ bytesOf "Connection: close" ++ [13, 10, 13, 10] := by decide
  rw [e1, e2]
  unfold build_request
  simp [List.append_assoc]


/-- No occurrence of `sep` starts inside the segment `l` of the string
`l ++ m` (occurrences may start in `m`). -/
def NoOcc (sep l m : List Nat) : Prop :=
  ∀ i < l.length, sep.isPrefixOf ((l ++ m).drop i) = false

instance (sep l m : List Nat) : Decidable (NoOcc sep l m) := by
  unfold NoOcc
  infer_instance

theorem pyReplaceAux_nil (sep : List Nat) (f : Nat) : pyReplaceAux sep [] f [] = [] := by
  cases f <;> rfl

theorem pyReplaceAux_skip (sep : List Nat) : ∀ (l m : List Nat) (f : Nat), l.length < f →
    NoOcc sep l m →
    pyReplaceAux sep [] f (l ++ m) = l ++ pyReplaceAux sep [] (f - l.length) m := by
  intro l
  induction l with
  | nil => intro m f hf h; simp
  | cons x xs ih =>
    intro m f hf h
    cases f with
    | zero => omega
    | succ f =>
      have hnp : sep.isPrefixOf (x :: (xs ++ m)) = false := by
        have := h 0 (by simp)
        simpa using this
      have hN : NoOcc sep xs m := by
        intro i hi
        have := h (i + 1) (by simp; omega)
        simpa using this
      have harith : f + 1 - (x :: xs).length = f - xs.length := by
        simp
      rw [harith]
      simp only [List.cons_append, pyReplaceAux, List.append_eq]
      rw [hnp]
      simp only [Bool.false_eq_true, if_false]
      rw [ih m f (by simp at hf; omega) hN]

theorem pyReplaceAux_hit (sep m : List Nat) (f : Nat) (hne : sep ≠ []) :
    pyReplaceAux sep [] (f + 1) (sep ++ m) = pyReplaceAux sep [] f m := by
  cases sep with
  | nil => exact absurd rfl hne
  | cons s0 ss =>
    have hpre : (s0 :: ss).isPrefixOf ((s0 :: ss) ++ m) = true := isPrefixOf_append_self _ m
    have hdrop : ((s0 :: ss) ++ m).drop (s0 :: ss).length = m := List.drop_left _ m
    simp only [List.cons_append] at hpre hdrop ⊢
    simp [pyReplaceAux, hpre, hdrop]

theorem pyReplace_single (sep a c : List Nat) (hsep : sep ≠ [])
    (h1 : NoOcc sep a (sep ++ c)) (h2 : NoOcc sep c []) :
    pyReplace sep [] (a ++ sep ++ c) = a ++ c := by
  have hslen : 1 ≤ sep.length := by
    cases sep with
    | nil => exact absurd rfl hsep
    | cons s0 ss => simp
  unfold pyReplace
  have he : a ++ sep ++ c = a ++ (sep ++ c) := by simp
  rw [he]
  rw [pyReplaceAux_skip sep a (sep ++ c) _ (by simp; omega) h1]
  have harith : (a ++ (sep ++ c)).length + 1 - a.length = (sep.length + c.length) + 1 := by
    simp
    omega
  rw [harith, pyReplaceAux_hit sep c _ hsep]
  have hc : pyReplaceAux sep [] (sep.length + c.length) c
      = pyReplaceAux sep [] (sep.length + c.length) (c ++ []) := by simp
  rw [hc, pyReplaceAux_skip sep c [] _ (by omega) h2]
  simp [pyReplaceAux_nil]

/-- Claim C4: `clean_response` deletes exactly the token occurrences of
`session_id=` and `timestamp=` (not the values following them), and the
comparison stage of `retrieve_url`, given two successful fetches, returns the
unnormalized first body when the normalized bodies agree (static page) and no
body at all when they differ (dynamic page). -/
theorem claim_C4_dynamic_check (a b2 c r1 r2 : List Nat)
    (hA : NoOcc sidTok a (sidTok ++ (b2 ++ tsTok ++ c)))
    (hC1 : NoOcc sidTok (b2 ++ tsTok ++ c) [])
    (hA2 : NoOcc tsTok (a ++ b2) (tsTok ++ c))
    (hC2 : NoOcc tsTok c []) :
    clean_response (a ++ sidTok ++ b2 ++ tsTok ++ c) = a ++ b2 ++ c ∧
    retrieve_url_tail (some r1) (some r2)
      = (if clean_response r1 = clean_response r2 then some r1 else none) := by
  constructor
  · unfold clean_response
    have s1 : pyReplace sidTok [] (a ++ sidTok ++ b2 ++ tsTok ++ c)
        = a ++ (b2 ++ tsTok ++ c) := by
      have he : a ++ sidTok ++ b2 ++ tsTok ++ c = a ++ sidTok ++ (b2 ++ tsTok ++ c) := by
        simp
      rw [he]
      exact pyReplace_single sidTok a (b2 ++ tsTok ++ c) (by decide) hA hC1
    rw [s1]
    have he2 : a ++ (b2 ++ tsTok ++ c) = (a ++ b2) ++ tsTok ++ c := by simp
    rw [he2, pyReplace_single tsTok (a ++ b2) c (by decide) hA2 hC2]
  · by_cases h : clean_response r1 = clean_response r2 <;> simp [retrieve_url_tail, h]

theorem claim_C4_witness :
    clean_response (bytesOf "x?" ++ sidTok ++ bytesOf "12&" ++ tsTok ++ bytesOf "42")
      = bytesOf "x?" ++ bytesOf "12&" ++ bytesOf "42" ∧
    retrieve_url_tail (some (bytesOf "same")) (some (bytesOf "same"))
      = some (bytesOf "same") := by
  have h := claim_C4_dynamic_check (bytesOf "x?") (bytesOf "12&") (bytesOf "42")
    (bytesOf "same") (bytesOf "same") (by decide) (by decide) (by decide) (by decide)
  refine ⟨h.1, ?_⟩
  rw [h.2]
  simp

/-- Counterexample to claim C3: `chainEnv` serves six consecutive 301
redirects (`/r0` through `/r5`) before the 200 response at `/r6`.  A chain of
six redirects exceeds the claimed default bound of five, yet the fetch
succeeds with the final body — there is no hop budget and no
`TooManyRedirectsError` in the program. -/
theorem claim_C3_counterexample :
    retrieve_urlF chainEnv 40 (bytesOf "http://h/r0")
      = some (Except.ok (some (bytesOf "hello"))) := by
  rfl

/-- Claim C3 as amended: redirect following has no hop bound.  Each 301/302
recurses into a fresh `retrieve_url` of the resolved Location without
decrementing any budget, so a chain of any length is followed to completion
(see the six-redirect success above), and on a redirect cycle the recursion
never returns, at any recursion depth: in the Python program, termination of a
cycle rests solely on the interpreter's recursion limit (the resulting
`RecursionError` is caught and mapped to `None`), not on any configured
maximum. -/
theorem claim_C3_amended : ∀ fuel,
    retrieve_urlF cycEnv fuel (bytesOf "http://h/a") = none := by
  intro fuel
  induction fuel with
  | zero => rfl
  | succ f ih =>
    have hp : parse_url cycEnv.idna (bytesOf "http://h/a")
        = Except.ok (some (bytesOf "http", bytesOf "h", (80 : Int), bytesOf "/a")) := by rfl
    have hstep : get_httpStep cycEnv (fun u => retrieve_urlF cycEnv f u)
        (bytesOf "h") (bytesOf "/a") 80 (bytesOf "http") = none := by
      have hsrv : cycEnv.server (bytesOf "h") (bytesOf "/a") 80 (bytesOf "http")
          = Except.ok (chainRaw (bytesOf "http://h/a")) := rfl
      have hproc : processResponse cycEnv.gunzip (bytesOf "http") (bytesOf "h")
          (chainRaw (bytesOf "http://h/a"))
          = HttpStep.redirect (bytesOf "http://h/a") := by decide
      unfold get_httpStep
      rw [hsrv]
      simp only []
      rw [hproc]
      simp only []
      rw [ih]
    unfold retrieve_urlF
    rw [hp]
    simp only []
    rw [hstep]

/-- Claim C10: for every environment (arbitrary server, gzip and IDNA oracle
behavior, including raised exceptions modelled as `Except.error`), every
recursion depth, and every input URL, `retrieve_url` never propagates an
exception: whenever it returns (`some r`), the result is a normal return
`Except.ok v` with `v` a body or `None` — unsupported schemes, bad ports,
IDNA failures, socket/TLS errors, malformed status lines and gzip failures are
all caught by its handlers and mapped to `None`.  (`none` is the fuel marker
of the unbounded redirect recursion, which in Python ends in a
`RecursionError` that the same handlers map to `None`.) -/
theorem claim_C10_total_no_exception (env : Env) (fuel : Nat) (url : List Nat) :
    retrieve_urlF env fuel url = none ∨
      ∃ v, retrieve_urlF env fuel url = some (Except.ok v) := by
  cases fuel with
  | zero => exact Or.inl rfl
  | succ f =>
    unfold retrieve_urlF
    repeat' split
    all_goals first
      | exact Or.inl rfl
      | exact Or.inr ⟨_, rfl⟩
